import Mathlib

/-!
Shallow embedding of the schedule-extraction core of `src/bot.py`
(chgu-schedule-bot): the pure parser `parse_schedule`, the week-parity
helper `is_even_week`, and the cached fetch `get_cached_schedule`.

Modelling conventions:
* Python strings are Lean `String`s; the Python `str` operations used by the
  source (`strip`, `in` substring test, `replace`, `split("\n")`,
  `split(")", 1)[1]`, `rstrip(':')`) are given explicit executable models
  over the character list (`pyStrip`, `pyContains`, `pyReplace`,
  `pySplitNl`, `pyAfterFirstClose`, `pyRstripColons`).
* An HTML document is a flat list of the nodes `parse_schedule` inspects:
  `h3` headings and tables (a table is its rows, a row its `td` cell texts).
  BeautifulSoup's `get_text(strip=True)` on a node holding a single text
  chunk is `pyStrip`; `header.find_next("table")` is the first table node
  after the heading in document order (`findNextTable`).
* The Python dict `days` (insertion-ordered, assignment overwrites the
  value of an existing key in place) is an association list with
  `dictInsert` / `dictGet`.
* Timestamps are integers; `timedelta(minutes=5)` is the constant
  `CACHE_DURATION` in seconds.  The clock read `datetime.now()` reaches the
  parser's result only through the parity bit of the ISO week number, so
  `is_even_week` takes the week number as an explicit argument and
  `parse_schedule` takes the parity flag as an explicit argument.
* The HTTP fetch is injected as an `Except FetchError` value consumed by
  `get_cached_schedule`, which also reports how many fetches it performed.
-/

namespace ChguBot

/-! ## Models of the Python string primitives -/

/-- Substring test on character lists: Python's `pat in s` (left-to-right
scan, also true for the empty pattern). -/
def listContains (pat : List Char) : List Char → Bool
  | [] => pat.isEmpty
  | c :: rest => pat.isPrefixOf (c :: rest) || listContains pat rest

/-- Model of Python `str.strip()`: drop leading and trailing whitespace. -/
def trimChars (l : List Char) : List Char :=
  ((l.dropWhile Char.isWhitespace).reverse.dropWhile Char.isWhitespace).reverse

/-- Model of Python `str.replace(pat, repl)` (all non-overlapping
occurrences, scanning left to right); the fuel argument is the length of
the scanned list, enough because every step consumes at least one
character. -/
def replaceFuel (pat repl : List Char) : Nat → List Char → List Char
  | _, [] => []
  | 0, s => s
  | fuel + 1, c :: rest =>
    if pat.isPrefixOf (c :: rest) then
      repl ++ replaceFuel pat repl fuel (List.drop (pat.length - 1) rest)
    else
      c :: replaceFuel pat repl fuel rest

/-- Model of Python `str.split("\n")`, with an accumulator for the current
segment (kept reversed). -/
def splitNlAux : List Char → List Char → List (List Char)
  | [], acc => [acc.reverse]
  | c :: rest, acc =>
    if c = '\n' then acc.reverse :: splitNlAux rest [] else splitNlAux rest (c :: acc)

/-- Everything after the first ')' character: Python's
`s.split(")", 1)[1]` when ')' occurs in `s` (the source only evaluates it
under that guard; we return the empty list when ')' is absent). -/
def afterFirstCloseChars : List Char → List Char
  | [] => []
  | c :: rest => if c = ')' then rest else afterFirstCloseChars rest

/-- Python `s.strip()` on a `String`. -/
def pyStrip (s : String) : String := ⟨trimChars s.data⟩

/-- Python `pat in s` on `String`s. -/
def pyContains (s pat : String) : Bool := listContains pat.data s.data

/-- Python `s.replace(pat, repl)` on `String`s. -/
def pyReplace (s pat repl : String) : String :=
  ⟨replaceFuel pat.data repl.data s.data.length s.data⟩

/-- Python `s.split("\n")` on `String`s. -/
def pySplitNl (s : String) : List String := (splitNlAux s.data []).map String.mk

/-- Python `s.split(")", 1)[1]` on `String`s (under the guard that ')'
occurs in `s`). -/
def pyAfterFirstClose (s : String) : String := ⟨afterFirstCloseChars s.data⟩

/-- Python `s.rstrip(':')`: drop every trailing colon. -/
def pyRstripColons (s : String) : String := ⟨(s.data.reverse.dropWhile (· = ':')).reverse⟩

/-! ## Parser (src/bot.py lines 33-120) -/

/-- The recognized weekday labels, `WEEKDAYS_RU` (bot.py lines 33-41),
Sunday included. -/
def WEEKDAYS_RU : List String :=
  ["Понедельник", "Вторник", "Среда", "Четверг", "Пятница", "Суббота", "Воскресенье"]

/-- The configured subgroup `MY_SUBGROUP = 2` (bot.py line 29). -/
def MY_SUBGROUP : Nat := 2

/-- Weekday parity check `is_even_week` (bot.py lines 61-63); the ISO week
number that the source reads from the clock is the explicit argument. -/
def is_even_week (isoWeekNumber : Nat) : Bool := isoWeekNumber % 2 == 0

/-- A node of the document as seen by `parse_schedule`: an `h3` heading
with its text, or a table given by its rows of `td` cell texts. -/
inductive Node where
  | h3 (text : String)
  | table (rows : List (List String))
deriving DecidableEq, Repr

/-- The first table node in the given node list: `header.find_next("table")`
applied to the part of the document after the heading (bot.py line 76). -/
def findNextTable : List Node → Option (List (List String))
  | [] => none
  | Node.h3 _ :: rest => findNextTable rest
  | Node.table rows :: _ => some rows

/-- Heading text to candidate day name:
`header.get_text(strip=True).rstrip(':')` (bot.py line 72). -/
def headerDayName (t : String) : String := pyRstripColons (pyStrip t)

/-- The even-week marker test `"**" in subject_cell` (bot.py line 95). -/
def is_even_marker (s : String) : Bool := pyContains s "**"

/-- The odd-week marker test `"*" in subject_cell and not is_even_marker`
(bot.py line 96). -/
def is_odd_marker (s : String) : Bool := pyContains s "*" && !is_even_marker s

/-- Combined effect of the two parity `continue`s (bot.py lines 98-101):
true when the row survives the week-parity check. -/
def passesParity (isEven : Bool) (s : String) : Bool :=
  !(is_even_marker s && !isEven) && !(is_odd_marker s && isEven)

/-- Marker stripping and line splitting (bot.py lines 103-104):
`clean_text = subject_cell.replace("**", "").replace("*", "").strip()`,
then the non-empty stripped lines of `clean_text.split("\n")`. -/
def cellLines (subject : String) : List String :=
  ((pySplitNl (pyStrip (pyReplace (pyReplace subject "**" "") "*" ""))).map pyStrip).filter
    (fun l => l ≠ "")

/-- The literal pattern `f"({MY_SUBGROUP})"` for a given subgroup
(bot.py line 108). -/
def subgroupPat (sg : Nat) : String := "(" ++ toString sg ++ ")"

/-- A line addressed to the target subgroup: `f"({sg})" in line`. -/
def lineMatches (sg : Nat) (line : String) : Bool := pyContains line (subgroupPat sg)

/-- A line with no parenthesis at all: `"(" not in line and ")" not in line`
(bot.py line 111). -/
def lineParenFree (line : String) : Bool := !pyContains line "(" && !pyContains line ")"

/-- The subgroup-resolution loop over the cell's lines (bot.py lines
106-113): scan in order; the first line containing `f"({sg})"` yields the
text after the first ')' stripped; otherwise the first line containing no
parenthesis is taken verbatim; both cases stop the scan. -/
def resolveLesson (sg : Nat) : List String → Option String
  | [] => none
  | line :: rest =>
    if lineMatches sg line then some (pyStrip (pyAfterFirstClose line))
    else if lineParenFree line then some line
    else resolveLesson sg rest

/-- Processing of one table row (bot.py lines 83-116): skip rows with fewer
than two cells; strip the two cell texts; skip empty or placeholder
subjects; apply the parity check; resolve the subgroup line; emit
`f"{time_cell} — {my_lesson}"` when the resolved lesson is truthy and not
the placeholder dash. -/
def processRow (isEven : Bool) (sg : Nat) (cells : List String) : Option String :=
  match cells with
  | timeCell :: subjectCell :: _ =>
    if pyStrip subjectCell = "" ∨ pyStrip subjectCell = "—" then none
    else if passesParity isEven (pyStrip subjectCell) then
      match resolveLesson sg (cellLines (pyStrip subjectCell)) with
      | some l => if l ≠ "" ∧ l ≠ "—" then some (pyStrip timeCell ++ " — " ++ l) else none
      | none => none
    else none
  | _ => none

/-- Row processing with the week-parity check removed: used to state that
`processRow` factors as the parity filter followed by the parity-independent
remainder of the pipeline. -/
def processRowNP (sg : Nat) (cells : List String) : Option String :=
  match cells with
  | timeCell :: subjectCell :: _ =>
    if pyStrip subjectCell = "" ∨ pyStrip subjectCell = "—" then none
    else
      match resolveLesson sg (cellLines (pyStrip subjectCell)) with
      | some l => if l ≠ "" ∧ l ≠ "—" then some (pyStrip timeCell ++ " — " ++ l) else none
      | none => none
  | _ => none

/-- One table: drop the header row (`table.find_all("tr")[1:]`, bot.py line
81) and accumulate the lessons of the remaining rows in order. -/
def parseTable (isEven : Bool) (sg : Nat) (rows : List (List String)) : List String :=
  (rows.drop 1).filterMap (processRow isEven sg)

/-- Python dict assignment `days[day_name] = lessons`: replace the value of
an existing key in place, else append the new pair. -/
def dictInsert : List (String × List String) → String → List String →
    List (String × List String)
  | [], k, v => [(k, v)]
  | (k', v') :: rest, k, v =>
    if k' = k then (k', v) :: rest else (k', v') :: dictInsert rest k v

/-- Python dict lookup `days.get(day_name)`. -/
def dictGet : List (String × List String) → String → Option (List String)
  | [], _ => none
  | (k', v') :: rest, k => if k' = k then some v' else dictGet rest k

/-- The main loop of `parse_schedule` (bot.py lines 70-118) over the
document's nodes, carrying the `days` dict: every `h3` whose cleaned text
is a recognized weekday and that is followed by a table contributes that
table's lessons under its day name; headings without a following table and
unrecognized headings are skipped. -/
def parseLoop (isEven : Bool) (sg : Nat) :
    List Node → List (String × List String) → List (String × List String)
  | [], days => days
  | Node.table _ :: rest, days => parseLoop isEven sg rest days
  | Node.h3 t :: rest, days =>
    if headerDayName t ∈ WEEKDAYS_RU then
      match findNextTable rest with
      | none => parseLoop isEven sg rest days
      | some rows =>
        parseLoop isEven sg rest (dictInsert days (headerDayName t) (parseTable isEven sg rows))
    else parseLoop isEven sg rest days

/-- The parser `parse_schedule` (bot.py lines 65-120).  The source computes
the parity flag by calling `is_even_week()` (line 68) and reads the
subgroup from `MY_SUBGROUP`; both are explicit arguments here. -/
def parse_schedule (doc : List Node) (isEven : Bool) (sg : Nat) :
    List (String × List String) :=
  parseLoop isEven sg doc []

/-! ## Cache (src/bot.py lines 43-45 and 122-142) -/

/-- The module-level cache `schedule_cache = {"data": None, "updated_at": None}`
(bot.py line 44). -/
structure CacheEntry where
  data : Option (List (String × List String))
  updated_at : Option Int
deriving DecidableEq, Repr

/-- The freshness window `CACHE_DURATION = timedelta(minutes=5)`
(bot.py line 45), in seconds. -/
def CACHE_DURATION : Int := 5 * 60

/-- The freshness test of bot.py lines 125-126:
`schedule_cache["data"] and schedule_cache["updated_at"]` (Python truthiness:
the data dict must be non-empty, the timestamp present) and
`now - updated_at < CACHE_DURATION`. -/
def cacheFresh (c : CacheEntry) (now : Int) : Bool :=
  match c.data, c.updated_at with
  | some d, some t => !d.isEmpty && decide (now - t < CACHE_DURATION)
  | _, _ => false

/-- Ways the guarded fetch of bot.py lines 132-135 can fail: the `except`
clause catches the network error, the timeout, and the non-success status
raised by `resp.raise_for_status()`. -/
inductive FetchError where
  | network
  | timeout
  | httpStatus
deriving DecidableEq, Repr

/-- The cached fetch `get_cached_schedule` (bot.py lines 122-142).  The HTTP
outcome is injected as `fetch`; `now` is the single `datetime.now()` read of
line 124; the parity flag and subgroup consumed by the inner
`parse_schedule` call are explicit.  Returns the value handed to the caller
(`None` on failure), the cache state after the call, and the number of
fetches performed (0 or 1). -/
def get_cached_schedule (fetch : Except FetchError (List Node)) (isEven : Bool) (sg : Nat)
    (c : CacheEntry) (now : Int) :
    Option (List (String × List String)) × CacheEntry × Nat :=
  if cacheFresh c now then (c.data, c, 0)
  else
    match fetch with
    | Except.ok doc =>
      (some (parse_schedule doc isEven sg),
        { data := some (parse_schedule doc isEven sg), updated_at := some now }, 1)
    | Except.error _ => (none, c, 1)

/-! ## Concurrency model for the cache (asyncio interleavings) -/

/-- Progress of one logical `get_cached_schedule` call.  The source is an
`async def` whose only suspension point is the awaited HTTP request
(bot.py line 134): the freshness check and fetch initiation (lines 124-134)
form the first synchronous segment, and response processing, parsing, and
the cache store (lines 135-139) form the second. -/
inductive SessPhase where
  | ready
  | awaitingFetch
  | finished (result : Option (List (String × List String)))
deriving DecidableEq, Repr

/-- The event-loop state shared by two concurrent calls: the module-level
cache, the count of HTTP fetches issued so far, and each call's phase. -/
structure SysState where
  cache : CacheEntry
  fetches : Nat
  s0 : SessPhase
  s1 : SessPhase
deriving DecidableEq, Repr

/-- One synchronous segment of one call, exactly as `get_cached_schedule`
executes it: from `ready`, run the freshness check of lines 125-128 and
either finish with the cached data or issue a fetch and suspend; from
`awaitingFetch`, run lines 136-139 (parse, store, return).  Both calls see
the same clock value and the same successfully fetched document. -/
def sessStep (doc : List Node) (isEven : Bool) (sg : Nat) (now : Int)
    (st : SysState) (phase : SessPhase) : SysState × SessPhase :=
  match phase with
  | SessPhase.ready =>
    if cacheFresh st.cache now then (st, SessPhase.finished st.cache.data)
    else ({ st with fetches := st.fetches + 1 }, SessPhase.awaitingFetch)
  | SessPhase.awaitingFetch =>
    ({ st with
        cache := { data := some (parse_schedule doc isEven sg), updated_at := some now } },
      SessPhase.finished (some (parse_schedule doc isEven sg)))
  | SessPhase.finished r => (st, SessPhase.finished r)

/-- Run an interleaving of the two calls: the schedule names, at each event
loop turn, which call's next synchronous segment runs (`false` for call 0,
`true` for call 1). -/
def runSched (doc : List Node) (isEven : Bool) (sg : Nat) (now : Int)
    (sched : List Bool) (st : SysState) : SysState :=
  match sched with
  | [] => st
  | who :: rest =>
    if who then
      let p := sessStep doc isEven sg now st st.s1
      runSched doc isEven sg now rest { p.1 with s1 := p.2 }
    else
      let p := sessStep doc isEven sg now st st.s0
      runSched doc isEven sg now rest { p.1 with s0 := p.2 }

/-! ## Helper lemmas -/

theorem listContains_eq_false_of_head (c0 : Char) (cs : List Char) :
    ∀ s : List Char, (∀ c ∈ s, c ≠ c0) → listContains (c0 :: cs) s = false := by
  intro s
  induction s with
  | nil => intro _; rfl
  | cons c rest ih =>
    intro h
    have hc : c ≠ c0 := h c (List.mem_cons_self _ _)
    have hpre : List.isPrefixOf (c0 :: cs) (c :: rest) = false := by
      simp [List.isPrefixOf]
      intro he
      exact absurd he.symm hc
    simp [listContains, hpre]
    exact ih (fun x hx => h x (List.mem_cons_of_mem _ hx))

theorem subgroupPat_data (sg : Nat) :
    (subgroupPat sg).data = '(' :: ((toString sg).data ++ [')']) := rfl

theorem lineMatches_general_assembly (sg : Nat) :
    lineMatches sg "General Assembly" = false := by
  have h := listContains_eq_false_of_head '(' ((toString sg).data ++ [')'])
      "General Assembly".data (by decide)
  simpa [lineMatches, pyContains, subgroupPat_data] using h

theorem resolveLesson_eq_find (sg : Nat) :
    ∀ lines : List String,
      resolveLesson sg lines =
        (lines.find? (fun l => lineMatches sg l || lineParenFree l)).map
          (fun l => if lineMatches sg l then pyStrip (pyAfterFirstClose l) else l) := by
  intro lines
  induction lines with
  | nil => rfl
  | cons l ls ih =>
    by_cases hm : lineMatches sg l = true
    · simp [resolveLesson, List.find?, hm]
    · by_cases hp : lineParenFree l = true
      · simp [resolveLesson, List.find?, hm, hp]
      · simp [resolveLesson, List.find?, hm, hp, ih]

theorem dictGet_dictInsert_self (d : List (String × List String)) (k : String) (v : List String) :
    dictGet (dictInsert d k v) k = some v := by
  induction d with
  | nil => simp [dictInsert, dictGet]
  | cons p rest ih =>
    by_cases h : p.1 = k <;> simp [dictInsert, dictGet, h, ih]

theorem dictGet_dictInsert_ne (d : List (String × List String)) (k : String) (v : List String)
    (k' : String) (h : k' ≠ k) :
    dictGet (dictInsert d k v) k' = dictGet d k' := by
  have hkk' : ¬ k = k' := fun e : k = k' => h e.symm
  induction d with
  | nil => simp [dictInsert, dictGet, hkk']
  | cons p rest ih =>
    obtain ⟨a, b⟩ := p
    by_cases hp : a = k
    · simp [dictInsert, dictGet, hp, hkk']
    · by_cases hp' : a = k' <;> simp [dictInsert, dictGet, hp, hp', ih, h, hkk']

theorem dictGet_dictInsert_isSome (d : List (String × List String)) (k : String)
    (v : List String) (k' : String)
    (h : (dictGet (dictInsert d k v) k').isSome = true) :
    k' = k ∨ (dictGet d k').isSome = true := by
  by_cases e : k' = k
  · exact Or.inl e
  · right; rwa [dictGet_dictInsert_ne d k v k' e] at h

theorem findNextTable_skip_h3 (a : List Node) (t : String) (b : List Node) :
    findNextTable (a ++ Node.h3 t :: b) = findNextTable (a ++ b) := by
  induction a with
  | nil => rfl
  | cons n rest ih => cases n <;> simp [findNextTable, ih]

theorem findNextTable_eq_none (l : List Node) (h : ∀ rows, Node.table rows ∉ l) :
    findNextTable l = none := by
  induction l with
  | nil => rfl
  | cons n rest ih =>
    cases n with
    | h3 t =>
      simp [findNextTable]
      exact ih (fun rows hr => h rows (List.mem_cons_of_mem _ hr))
    | table rows => exact absurd (List.mem_cons_self _ _) (h rows)

theorem parseLoop_no_recognized (isEven : Bool) (sg : Nat) :
    ∀ (doc : List Node) (days : List (String × List String)),
      (∀ t, Node.h3 t ∈ doc → headerDayName t ∉ WEEKDAYS_RU) →
      parseLoop isEven sg doc days = days := by
  intro doc
  induction doc with
  | nil => intro days _; rfl
  | cons n rest ih =>
    intro days h
    cases n with
    | h3 t =>
      have ht : headerDayName t ∉ WEEKDAYS_RU := h t (List.mem_cons_self _ _)
      simp [parseLoop, ht]
      exact ih days (fun u hu => h u (List.mem_cons_of_mem _ hu))
    | table rows =>
      simp [parseLoop]
      exact ih days (fun u hu => h u (List.mem_cons_of_mem _ hu))

theorem parseLoop_get_no_day (isEven : Bool) (sg : Nat) (k : String) :
    ∀ (doc : List Node) (days : List (String × List String)),
      (∀ t, Node.h3 t ∈ doc → headerDayName t ≠ k) →
      dictGet (parseLoop isEven sg doc days) k = dictGet days k := by
  intro doc
  induction doc with
  | nil => intro days _; rfl
  | cons n rest ih =>
    intro days h
    cases n with
    | h3 t =>
      have ht : headerDayName t ≠ k := h t (List.mem_cons_self _ _)
      have hrest : ∀ u, Node.h3 u ∈ rest → headerDayName u ≠ k :=
        fun u hu => h u (List.mem_cons_of_mem _ hu)
      by_cases hw : headerDayName t ∈ WEEKDAYS_RU
      · cases hft : findNextTable rest with
        | none => simp [parseLoop, hw, hft, ih _ hrest]
        | some rows =>
          simp [parseLoop, hw, hft, ih _ hrest]
          exact dictGet_dictInsert_ne _ _ _ _ (fun e => ht e.symm)
      · simp [parseLoop, hw, ih _ hrest]
    | table rows =>
      simp [parseLoop]
      exact ih days (fun u hu => h u (List.mem_cons_of_mem _ hu))

theorem parseLoop_keys (isEven : Bool) (sg : Nat) (k : String) :
    ∀ (doc : List Node) (days : List (String × List String)),
      (dictGet (parseLoop isEven sg doc days) k).isSome = true →
      (dictGet days k).isSome = true ∨ k ∈ WEEKDAYS_RU := by
  intro doc
  induction doc with
  | nil => intro days h; exact Or.inl h
  | cons n rest ih =>
    intro days h
    cases n with
    | h3 t =>
      by_cases hw : headerDayName t ∈ WEEKDAYS_RU
      · cases hft : findNextTable rest with
        | none =>
          simp only [parseLoop, hw, if_true, hft] at h
          exact ih days h
        | some rows =>
          simp only [parseLoop, hw, if_true, hft] at h
          rcases ih _ h with h' | h'
          · rcases dictGet_dictInsert_isSome _ _ _ _ h' with he | h''
            · exact Or.inr (he ▸ hw)
            · exact Or.inl h''
          · exact Or.inr h'
      · simp only [parseLoop, hw, if_false] at h
        exact ih days h
    | table rows =>
      simp only [parseLoop] at h
      exact ih days h

theorem parseLoop_skip_heading_no_table (isEven : Bool) (sg : Nat) (t : String)
    (post : List Node) (hpost : ∀ rows, Node.table rows ∉ post) :
    ∀ (pre : List Node) (days : List (String × List String)),
      parseLoop isEven sg (pre ++ Node.h3 t :: post) days =
        parseLoop isEven sg (pre ++ post) days := by
  intro pre
  induction pre with
  | nil =>
    intro days
    by_cases hw : headerDayName t ∈ WEEKDAYS_RU
    · simp [parseLoop, hw, findNextTable_eq_none post hpost]
    · simp [parseLoop, hw]
  | cons n rest ih =>
    intro days
    cases n with
    | h3 u =>
      simp only [List.cons_append, parseLoop, List.append_eq]
      rw [findNextTable_skip_h3]
      by_cases hw : headerDayName u ∈ WEEKDAYS_RU
      · cases hft : findNextTable (rest ++ post) with
        | none => simp [hw, hft, ih]
        | some rows => simp [hw, hft, ih]
      · simp [hw, ih]
    | table rows =>
      simp only [List.cons_append, parseLoop]
      exact ih days

theorem parseLoop_last_heading (isEven : Bool) (sg : Nat) (t : String) (post : List Node)
    (rows : List (List String))
    (hw : headerDayName t ∈ WEEKDAYS_RU)
    (hpost : ∀ u, Node.h3 u ∈ post → headerDayName u ≠ headerDayName t)
    (hft : findNextTable post = some rows) :
    ∀ (pre : List Node) (days : List (String × List String)),
      dictGet (parseLoop isEven sg (pre ++ Node.h3 t :: post) days) (headerDayName t) =
        some (parseTable isEven sg rows) := by
  intro pre
  induction pre with
  | nil =>
    intro days
    simp only [List.nil_append, parseLoop, hw, if_true, hft]
    rw [parseLoop_get_no_day isEven sg (headerDayName t) post _ hpost]
    exact dictGet_dictInsert_self _ _ _
  | cons n rest ih =>
    intro days
    cases n with
    | h3 u =>
      simp only [List.cons_append, parseLoop]
      by_cases hwu : headerDayName u ∈ WEEKDAYS_RU
      · cases hft' : findNextTable (rest ++ Node.h3 t :: post) with
        | none => simp [hwu, hft', ih]
        | some rows' => simp [hwu, hft', ih]
      · simp [hwu, ih]
    | table rows' =>
      simp only [List.cons_append, parseLoop]
      exact ih days

/-! ## Claim theorems -/

/-- C1: week-parity exclusivity of parse.  A subject cell containing the
double marker survives the parity check exactly when `isEven` is true; one
containing the single but not the double marker survives exactly when
`isEven` is false; one containing neither marker always survives.  Survival
of the parity check is the only way parity influences a row: `processRow`
factors as the parity filter followed by the parity-independent remainder
`processRowNP` of the pipeline, so a row whose marker disagrees with the
parity is excluded from the result entirely, and an included row is one
whose marker agrees and which the remaining checks accept. -/
theorem claim_C1_parity_exclusivity :
    ∀ (isEven : Bool) (s : String),
      (pyContains s "**" = true → passesParity isEven s = isEven) ∧
      (pyContains s "*" = true → pyContains s "**" = false → passesParity isEven s = !isEven) ∧
      (pyContains s "*" = false → pyContains s "**" = false → passesParity isEven s = true) ∧
      (∀ (sg : Nat) (timeCell : String) (restCells : List String),
        processRow isEven sg (timeCell :: s :: restCells) =
          if passesParity isEven (pyStrip s) = true then
            processRowNP sg (timeCell :: s :: restCells)
          else none) := by
  intro isEven s
  refine ⟨?_, ?_, ?_, ?_⟩
  · intro h
    cases isEven <;> simp [passesParity, is_even_marker, is_odd_marker, h]
  · intro h1 h2
    simp [passesParity, is_even_marker, is_odd_marker, h1, h2]
  · intro h1 h2
    simp [passesParity, is_even_marker, is_odd_marker, h1, h2]
  · intro sg timeCell restCells
    by_cases h1 : pyStrip s = "" ∨ pyStrip s = "—"
    · simp [processRow, processRowNP, h1]
    · by_cases h2 : passesParity isEven (pyStrip s) = true
      · simp [processRow, processRowNP, h1, h2]
      · simp [processRow, processRowNP, h1, h2]

/-- Witness for C1 at concrete cells: an even-marked cell passes exactly in
even weeks, an odd-marked cell exactly in odd weeks, an unmarked cell in
both. -/
theorem claim_C1_parity_exclusivity_witness :
    passesParity true "** История" = true ∧ passesParity false "** История" = false ∧
    passesParity false "* Физика" = true ∧ passesParity true "* Физика" = false ∧
    passesParity true "Математика" = true ∧ passesParity false "Математика" = true :=
  ⟨(claim_C1_parity_exclusivity true "** История").1 (by decide),
   (claim_C1_parity_exclusivity false "** История").1 (by decide),
   (claim_C1_parity_exclusivity false "* Физика").2.1 (by decide) (by decide),
   (claim_C1_parity_exclusivity true "* Физика").2.1 (by decide) (by decide),
   (claim_C1_parity_exclusivity true "Математика").2.2.1 (by decide) (by decide),
   (claim_C1_parity_exclusivity false "Математика").2.2.1 (by decide) (by decide)⟩

/-- C2: subgroup resolution of parse.  Scanning the cell's lines in order,
the scan stops at the first line that either contains the literal pattern
`f"({sg})"` — resolving to the text after the first closing parenthesis,
stripped — or contains neither parenthesis and is taken verbatim: the loop
equals a first-match search with that combined predicate.  In particular
lines `["(1) Math", "(2) Physics"]` with subgroup 2 resolve to `"Physics"`,
and `["General Assembly"]` resolves to itself for every subgroup. -/
theorem claim_C2_subgroup_resolution :
    (∀ (sg : Nat) (lines : List String),
      resolveLesson sg lines =
        (lines.find? (fun l => lineMatches sg l || lineParenFree l)).map
          (fun l => if lineMatches sg l then pyStrip (pyAfterFirstClose l) else l)) ∧
    resolveLesson 2 ["(1) Math", "(2) Physics"] = some "Physics" ∧
    (∀ sg : Nat, resolveLesson sg ["General Assembly"] = some "General Assembly") := by
  refine ⟨fun sg lines => resolveLesson_eq_find sg lines, by decide, ?_⟩
  intro sg
  simp [resolveLesson, lineMatches_general_assembly]
  decide

/-- C3 counterexample: for a document consisting of a matched day heading
with no tabular structure after it, the returned snapshot does not hold the
day's key with an empty list — the key is absent altogether (the source
hits `continue` at bot.py lines 77-78 and never assigns `days[day_name]`). -/
theorem claim_C3_counterexample :
    ¬ dictGet (parse_schedule [Node.h3 "Понедельник"] true MY_SUBGROUP) "Понедельник" =
      some [] := by decide

/-- C3 as amended: if a matched day heading has no tabular structure
following it in document order, `parse_schedule` records nothing for that
heading — the document parses exactly as if the heading were absent, so the
day's key is missing unless another occurrence of the same heading
contributes it — and this is not an error. -/
theorem claim_C3_amended_no_table_day_skipped :
    ∀ (isEven : Bool) (sg : Nat) (pre : List Node) (t : String) (post : List Node),
      (∀ rows, Node.table rows ∉ post) →
      parse_schedule (pre ++ Node.h3 t :: post) isEven sg =
        parse_schedule (pre ++ post) isEven sg := by
  intro isEven sg pre t post hpost
  exact parseLoop_skip_heading_no_table isEven sg t post hpost pre []

/-- Witness for the amended C3: a lone Monday heading with no table yields
the same (empty) snapshot as the empty document. -/
theorem claim_C3_amended_no_table_day_skipped_witness :
    parse_schedule [Node.h3 "Понедельник"] true MY_SUBGROUP =
      parse_schedule [] true MY_SUBGROUP :=
  claim_C3_amended_no_table_day_skipped true MY_SUBGROUP [] "Понедельник" [] (by simp)

/-- C4 counterexample: the cache check tests the Python truthiness of the
stored dict (bot.py line 125), so with an existing but empty snapshot of
age zero the call still performs a fetch, refuting the claim that any
existing snapshot younger than the window is served without fetching. -/
theorem claim_C4_counterexample :
    ¬ (get_cached_schedule (Except.ok []) true MY_SUBGROUP
        { data := some [], updated_at := some 0 } 0).2.2 = 0 := by decide

/-- C4 as amended: a call made when a non-empty snapshot exists and its age
is strictly below the freshness window returns the cached snapshot with no
fetch and leaves the cache unchanged; a call made when the snapshot is
missing or empty, the timestamp is missing, or the age is at least the
window performs exactly one fetch. -/
theorem claim_C4_amended_cache_freshness :
    (∀ (fetch : Except FetchError (List Node)) (isEven : Bool) (sg : Nat)
        (d : List (String × List String)) (t now : Int),
      d ≠ [] → now - t < CACHE_DURATION →
      get_cached_schedule fetch isEven sg { data := some d, updated_at := some t } now =
        (some d, { data := some d, updated_at := some t }, 0)) ∧
    (∀ (fetch : Except FetchError (List Node)) (isEven : Bool) (sg : Nat)
        (c : CacheEntry) (now : Int),
      (c.data = none ∨ c.data = some [] ∨ c.updated_at = none ∨
        ∃ t, c.updated_at = some t ∧ CACHE_DURATION ≤ now - t) →
      (get_cached_schedule fetch isEven sg c now).2.2 = 1) := by
  constructor
  · intro fetch isEven sg d t now hd hlt
    have hne : d.isEmpty = false := by
      cases d with
      | nil => exact absurd rfl hd
      | cons a l => rfl
    have hfresh : cacheFresh { data := some d, updated_at := some t } now = true := by
      simp [cacheFresh, hne, hlt]
    simp [get_cached_schedule, hfresh]
  · intro fetch isEven sg c now h
    have hfresh : cacheFresh c now = false := by
      obtain ⟨cd, cu⟩ := c
      rcases h with h | h | h | ⟨t, h1, h2⟩
      · simp only at h
        subst h
        cases cu <;> simp [cacheFresh]
      · simp only at h
        subst h
        cases cu <;> simp [cacheFresh]
      · simp only at h
        subst h
        cases cd <;> simp [cacheFresh]
      · simp only at h1
        subst h1
        have hnlt : ¬ (now - t < CACHE_DURATION) := not_lt.mpr h2
        cases cd <;> simp [cacheFresh, hnlt]
    cases fetch <;> simp [get_cached_schedule, hfresh]

/-- Witness for the amended C4: a one-day snapshot of age 10 seconds is
served with zero fetches; an empty cache performs one fetch. -/
theorem claim_C4_amended_cache_freshness_witness :
    get_cached_schedule (Except.ok []) true MY_SUBGROUP
        { data := some [("Понедельник", [])], updated_at := some 0 } 10 =
      (some [("Понедельник", [])],
        { data := some [("Понедельник", [])], updated_at := some 0 }, 0) ∧
    (get_cached_schedule (Except.ok []) true MY_SUBGROUP
        { data := none, updated_at := none } 0).2.2 = 1 :=
  ⟨claim_C4_amended_cache_freshness.1 (Except.ok []) true MY_SUBGROUP
      [("Понедельник", [])] 0 10 (by decide) (by decide),
   claim_C4_amended_cache_freshness.2 (Except.ok []) true MY_SUBGROUP
      { data := none, updated_at := none } 0 (Or.inl rfl)⟩

/-- C5: failure atomicity of the cache refresh.  Whenever the freshness
check fails and the injected fetch outcome is any error (network failure,
timeout, or non-success HTTP status), `get_cached_schedule` returns the
error value `none` to the caller and the cache entry after the call is
exactly the entry before it, even if that entry is stale. -/
theorem claim_C5_failure_atomicity :
    ∀ (e : FetchError) (isEven : Bool) (sg : Nat) (c : CacheEntry) (now : Int),
      cacheFresh c now = false →
      get_cached_schedule (Except.error e) isEven sg c now = (none, c, 1) := by
  intro e isEven sg c now h
  simp [get_cached_schedule, h]

/-- Witness for C5: a timed-out refresh over a stale one-day snapshot
returns the error and leaves the stale snapshot and its timestamp in
place. -/
theorem claim_C5_failure_atomicity_witness :
    get_cached_schedule (Except.error FetchError.timeout) true MY_SUBGROUP
        { data := some [("Понедельник", ["9:00 — Физика"])], updated_at := some 0 } 1000 =
      (none, { data := some [("Понедельник", ["9:00 — Физика"])], updated_at := some 0 }, 1) :=
  claim_C5_failure_atomicity FetchError.timeout true MY_SUBGROUP
    { data := some [("Понедельник", ["9:00 — Физика"])], updated_at := some 0 } 1000 (by decide)

/-- C6: parse totality and graceful degradation.  The embedded
`parse_schedule` is a total function; on any document none of whose `h3`
headings cleans up to a recognized weekday label it returns the empty
mapping, and on any document whatsoever every key of the returned snapshot
is a recognized weekday label, so malformed markup yields an empty or
partial snapshot rather than an error. -/
theorem claim_C6_graceful_degradation :
    (∀ (doc : List Node) (isEven : Bool) (sg : Nat),
      (∀ t, Node.h3 t ∈ doc → headerDayName t ∉ WEEKDAYS_RU) →
      parse_schedule doc isEven sg = []) ∧
    (∀ (doc : List Node) (isEven : Bool) (sg : Nat) (k : String),
      (dictGet (parse_schedule doc isEven sg) k).isSome = true → k ∈ WEEKDAYS_RU) := by
  constructor
  · intro doc isEven sg h
    exact parseLoop_no_recognized isEven sg doc [] h
  · intro doc isEven sg k h
    rcases parseLoop_keys isEven sg k doc [] h with h' | h'
    · simp [dictGet] at h'
    · exact h'

/-- Witness for C6: a document whose only heading is not a weekday parses
to the empty mapping, and a populated Monday key is a recognized
weekday. -/
theorem claim_C6_graceful_degradation_witness :
    parse_schedule [Node.h3 "Расписание", Node.table [["9:00", "Математика"]]] true
        MY_SUBGROUP = [] ∧
    "Понедельник" ∈ WEEKDAYS_RU :=
  ⟨claim_C6_graceful_degradation.1 [Node.h3 "Расписание", Node.table [["9:00", "Математика"]]]
      true MY_SUBGROUP
      (by
        intro t ht
        simp at ht
        subst ht
        decide),
   claim_C6_graceful_degradation.2
      [Node.h3 "Понедельник", Node.table [["x", "y"], ["9:00", "Математика"]]] true MY_SUBGROUP
      "Понедельник" (by decide)⟩

/-- C7: parse is a pure deterministic function of its stated inputs.  In
the embedding the document, the week-parity flag, and the target subgroup
are the only arguments of `parse_schedule` (the source's sole hidden input,
the clock, reaches the result only through the parity of the ISO week
number, itself a deterministic function `is_even_week` of the week number),
so two calls on equal inputs yield structurally equal snapshots. -/
theorem claim_C7_determinism :
    (∀ (doc1 doc2 : List Node) (p1 p2 : Bool) (sg1 sg2 : Nat),
      doc1 = doc2 → p1 = p2 → sg1 = sg2 →
      parse_schedule doc1 p1 sg1 = parse_schedule doc2 p2 sg2) ∧
    (∀ w1 w2 : Nat, w1 = w2 → is_even_week w1 = is_even_week w2) := by
  constructor
  · intro doc1 doc2 p1 p2 sg1 sg2 h1 h2 h3
    rw [h1, h2, h3]
  · intro w1 w2 h
    rw [h]

/-- Witness for C7 at a concrete document, parity, and subgroup. -/
theorem claim_C7_determinism_witness :
    parse_schedule [Node.h3 "Среда", Node.table [["x", "y"], ["9:00", "Математика"]]] true 2 =
      parse_schedule [Node.h3 "Среда", Node.table [["x", "y"], ["9:00", "Математика"]]] true 2 ∧
    is_even_week 41 = is_even_week 41 :=
  ⟨claim_C7_determinism.1 _ _ _ _ _ _ rfl rfl rfl, claim_C7_determinism.2 41 41 rfl⟩

/-- C8: placeholder suppression.  A row whose stripped subject cell is
empty or the placeholder dash, or whose resolved lesson text is the
placeholder dash, produces no lesson entry. -/
theorem claim_C8_placeholder_suppression :
    ∀ (isEven : Bool) (sg : Nat) (timeCell subjectCell : String) (restCells : List String),
      (pyStrip subjectCell = "" ∨ pyStrip subjectCell = "—" ∨
        resolveLesson sg (cellLines (pyStrip subjectCell)) = some "—") →
      processRow isEven sg (timeCell :: subjectCell :: restCells) = none := by
  intro isEven sg timeCell subjectCell restCells h
  rcases h with h | h | h
  · simp [processRow, h]
  · simp [processRow, h]
  · by_cases h1 : pyStrip subjectCell = "" ∨ pyStrip subjectCell = "—"
    · simp [processRow, h1]
    · by_cases h2 : passesParity isEven (pyStrip subjectCell) = true
      · simp [processRow, h1, h2, h]
      · simp [processRow, h1, h2]

/-- Witness for C8: a bare placeholder cell and a cell whose subgroup line
resolves to the placeholder both produce no entry. -/
theorem claim_C8_placeholder_suppression_witness :
    processRow true MY_SUBGROUP ["10:30", "—"] = none ∧
    processRow true MY_SUBGROUP ["9:00", "(2) —"] = none :=
  ⟨claim_C8_placeholder_suppression true MY_SUBGROUP "10:30" "—" []
      (Or.inr (Or.inl (by decide))),
   claim_C8_placeholder_suppression true MY_SUBGROUP "9:00" "(2) —" []
      (Or.inr (Or.inr (by decide)))⟩

/-- C9 failing run: `get_cached_schedule` holds no lock around its
check-then-fetch-then-store sequence, so in the interleaving where both
concurrent calls run their freshness check (first synchronous segment)
before either completes its fetch, each call issues its own fetch: two
fetches for two callers that both observed the empty cache, not the single
coalesced fetch the claim requires, and both callers still finish with the
parsed snapshot. -/
theorem claim_C9_duplicate_fetches :
    (runSched [Node.h3 "Понедельник", Node.table [["x", "y"], ["9:00", "Математика"]]] true
        MY_SUBGROUP 0 [false, true, false, true]
        { cache := { data := none, updated_at := none }, fetches := 0,
          s0 := SessPhase.ready, s1 := SessPhase.ready }).fetches = 2 ∧
    (runSched [Node.h3 "Понедельник", Node.table [["x", "y"], ["9:00", "Математика"]]] true
        MY_SUBGROUP 0 [false, true, false, true]
        { cache := { data := none, updated_at := none }, fetches := 0,
          s0 := SessPhase.ready, s1 := SessPhase.ready }).s0 =
      SessPhase.finished (some [("Понедельник", ["9:00 — Математика"])]) ∧
    (runSched [Node.h3 "Понедельник", Node.table [["x", "y"], ["9:00", "Математика"]]] true
        MY_SUBGROUP 0 [false, true, false, true]
        { cache := { data := none, updated_at := none }, fetches := 0,
          s0 := SessPhase.ready, s1 := SessPhase.ready }).s1 =
      SessPhase.finished (some [("Понедельник", ["9:00 — Математика"])]) := by decide

/-- C10: last heading wins on duplicates.  If a recognized day heading is
followed by a table and no later heading in the document carries the same
day name, the snapshot's entry for that day is exactly the lessons of that
table, whatever earlier occurrences of the same heading the prefix
contains: the dict assignment overwrites their lessons. -/
theorem claim_C10_last_heading_wins :
    ∀ (isEven : Bool) (sg : Nat) (pre : List Node) (t : String) (post : List Node)
      (rows : List (List String)),
      headerDayName t ∈ WEEKDAYS_RU →
      (∀ u, Node.h3 u ∈ post → headerDayName u ≠ headerDayName t) →
      findNextTable post = some rows →
      dictGet (parse_schedule (pre ++ Node.h3 t :: post) isEven sg) (headerDayName t) =
        some (parseTable isEven sg rows) := by
  intro isEven sg pre t post rows hw hpost hft
  exact parseLoop_last_heading isEven sg t post rows hw hpost hft pre []

/-- Witness for C10: with two Monday headings each followed by its own
table, the snapshot's Monday entry is the second table's lessons; the first
table's lesson is discarded. -/
theorem claim_C10_last_heading_wins_witness :
    dictGet
      (parse_schedule
        ([Node.h3 "Понедельник", Node.table [["x", "y"], ["9:00", "История"]]] ++
          Node.h3 "Понедельник" :: [Node.table [["x", "y"], ["11:00", "Физика"]]])
        true MY_SUBGROUP)
      (headerDayName "Понедельник") =
      some (parseTable true MY_SUBGROUP [["x", "y"], ["11:00", "Физика"]]) :=
  claim_C10_last_heading_wins true MY_SUBGROUP
    [Node.h3 "Понедельник", Node.table [["x", "y"], ["9:00", "История"]]] "Понедельник"
    [Node.table [["x", "y"], ["11:00", "Физика"]]] [["x", "y"], ["11:00", "Физика"]]
    (by decide)
    (by
      intro u hu
      simp only [List.mem_singleton] at hu
      cases hu)
    rfl

end ChguBot
